import Mathlib

/-!
# Verification of the HighFinesse LSA server sample-chunking core

Shallow embedding of `highfinesse_lsa/sample_chunker.py` and the dispatcher
callback of `highfinesse_lsa/server.py`.

Measurement values (Python `float`s used only as opaque data) are modelled as
rationals `ℚ`; Python truthiness of a value `v` is `v ≠ 0`, and of a list its
non-emptiness.  Side effects (the bin-finished callback, resolving an
`asyncio.Future`, timer scheduling/cancellation via `loop.call_later`, and log
output) are modelled as an explicit event list emitted by each operation.
Timer handles and waiter futures are identified by freshly allocated natural
numbers.  The `assert` in `_finish_bin` is modelled with `Except String`.
-/

namespace LsaChunker

/-- An observable side effect of a `SampleChunker` operation. -/
inductive Event where
  /-- the `bin_finished` callback invoked with the samples of the finished bin -/
  | binFinished (samples : List ℚ)
  /-- `Future.set_result value` on the waiter future with the given id -/
  | resolve (waiterId : Nat) (value : ℚ)
  /-- `handle.cancel()` on the timer handle with the given id -/
  | cancelTimer (timerId : Nat)
  /-- `loop.call_later(secs, _timeout_elapsed)` returning the given handle id -/
  | scheduleTimer (timerId : Nat) (secs : Nat)
  /-- the low-traffic debug log notice naming the channel and the interval -/
  | logNoData (channel : String) (secs : Nat)
  deriving Repr, DecidableEq

/-- State of one `SampleChunker` instance (one channel).  `timeout` is the id
of the currently stored timer handle (`self._timeout`); `nextTimerId` and
`nextWaiterId` are allocators for fresh handle/future identities. -/
structure SampleChunker where
  name : String
  target_bin_size : Int
  max_bin_duration_secs : Nat
  points : List ℚ
  last_point : Option ℚ
  waiting_for_values : List Nat
  timeout : Nat
  nextTimerId : Nat
  nextWaiterId : Nat
  deriving Repr, DecidableEq

/-- `SampleChunker._schedule_timeout`: store a fresh `call_later` handle. -/
def SampleChunker.schedule_timeout (s : SampleChunker) :
    SampleChunker × List Event :=
  let id := s.nextTimerId
  ({ s with timeout := id, nextTimerId := id + 1 },
   [Event.scheduleTimer id s.max_bin_duration_secs])

/-- `SampleChunker.__init__`: empty state, then `_schedule_timeout`. -/
def SampleChunker.init (name : String) (target_bin_size : Int)
    (max_bin_duration_secs : Nat) : SampleChunker × List Event :=
  SampleChunker.schedule_timeout
    { name := name
      target_bin_size := target_bin_size
      max_bin_duration_secs := max_bin_duration_secs
      points := []
      last_point := none
      waiting_for_values := []
      timeout := 0
      nextTimerId := 0
      nextWaiterId := 0 }

/-- `SampleChunker._finish_bin`: assert the bin is non-empty, cancel the
timer, invoke `bin_finished` with the points, clear them, reschedule. -/
def SampleChunker.finish_bin (s : SampleChunker) :
    Except String (SampleChunker × List Event) :=
  if s.points = [] then .error "Cannot finish empty bin"
  else
    let (s2, schedEvs) := SampleChunker.schedule_timeout { s with points := [] }
    .ok (s2, [Event.cancelTimer s.timeout, Event.binFinished s.points] ++ schedEvs)

/-- `SampleChunker.push`: append the value, record it as last point, finish
the bin when the target size is reached exactly, then resolve and clear all
pending waiter futures. -/
def SampleChunker.push (s : SampleChunker) (value : ℚ) :
    Except String (SampleChunker × List Event) :=
  let s1 := { s with points := s.points ++ [value], last_point := some value }
  match (if (s1.points.length : Int) = s1.target_bin_size then s1.finish_bin
         else Except.ok (s1, ([] : List Event))) with
  | Except.error e => Except.error e
  | Except.ok (s2, flushEvs) =>
    Except.ok ({ s2 with waiting_for_values := [] },
      flushEvs ++ s2.waiting_for_values.map fun id => Event.resolve id value)

/-- `SampleChunker.get_new` up to its suspension point: allocate a fresh
future, append it to `_waiting_for_values`, and return its identity (the
caller then awaits it). -/
def SampleChunker.get_new_register (s : SampleChunker) : SampleChunker × Nat :=
  let id := s.nextWaiterId
  ({ s with waiting_for_values := s.waiting_for_values ++ [id]
            nextWaiterId := id + 1 }, id)

/-- Python truthiness test `not self._last_point`: true for `None` and for a
zero value. -/
def pyFalsy : Option ℚ → Bool
  | none => true
  | some v => v == 0

/-- Outcome of a read operation: an immediately returned value, or suspension
on the waiter future with the given id. -/
inductive ReadResult where
  | immediate (value : ℚ)
  | suspended (waiterId : Nat)
  deriving Repr, DecidableEq

/-- `SampleChunker.get_latest`: if `not self._last_point`, behave as
`get_new` (suspend); otherwise return the last point immediately. -/
def SampleChunker.get_latest (s : SampleChunker) : SampleChunker × ReadResult :=
  if pyFalsy s.last_point then
    let (s2, id) := s.get_new_register
    (s2, ReadResult.suspended id)
  else
    (s, ReadResult.immediate (s.last_point.getD 0))

/-- `SampleChunker._timeout_elapsed`: the non-empty branch of the source is
literally `pass`; the empty branch logs the low-traffic notice.  Either way a
fresh timer is scheduled. -/
def SampleChunker.timeout_elapsed (s : SampleChunker) :
    SampleChunker × List Event :=
  let logEvs :=
    if s.points = [] then [Event.logNoData s.name s.max_bin_duration_secs]
    else []
  let (s2, schedEvs) := s.schedule_timeout
  (s2, logEvs ++ schedEvs)

/-- The measurement kinds of `wlm_data.MeasurementType` used as dispatch keys
by the server. -/
inductive MeasurementType where
  | temperature
  | air_pressure
  | wavelength
  | linewidth
  | exposure_time_1
  | exposure_time_2
  deriving Repr, DecidableEq

/-- The `channels` dict of `server.main`, as an association list from
measurement kind to the state of the registered `SampleChunker`. -/
abbrev Channels := List (MeasurementType × SampleChunker)

/-- `meas_cb` of `server.main`: if a channel is registered for the kind, push
the value into it (mutating only that entry); otherwise do nothing. -/
def meas_cb (channels : Channels) (meas_type : MeasurementType)
    (meas_value : ℚ) : Except String (Channels × List Event) :=
  match channels.lookup meas_type with
  | none => Except.ok (channels, [])
  | some c =>
    match c.push meas_value with
    | Except.error e => Except.error e
    | Except.ok (c2, evs) =>
      Except.ok
        (channels.map fun p => if p.1 = meas_type then (p.1, c2) else p, evs)

/-! ## Event-loop runs

To express the timer invariant we track, alongside the chunker state, the
list of live timer handles: handles that have been scheduled via
`loop.call_later` and neither cancelled nor fired yet. -/

/-- Apply the effect of one event on the list of live timer handles. -/
def applyTimerEvent (live : List Nat) : Event → List Nat
  | Event.scheduleTimer id _ => live ++ [id]
  | Event.cancelTimer id => live.erase id
  | _ => live

/-- Apply a list of events to the live-timer list, in order. -/
def applyTimerEvents (live : List Nat) (evs : List Event) : List Nat :=
  evs.foldl applyTimerEvent live

/-- One channel together with the live timer handles of its event loop. -/
structure Sys where
  chunker : SampleChunker
  live : List Nat
  deriving Repr, DecidableEq

/-- Operations the event loop can perform on one channel. -/
inductive Op where
  /-- `meas_cb` delivers a value: `SampleChunker.push` runs -/
  | pushOp (value : ℚ)
  /-- the live timer fires: it leaves the pending set of the loop and
  `_timeout_elapsed` runs -/
  | timerFire
  /-- a consumer calls `get_new` (up to its suspension point) -/
  | getNewOp
  /-- a consumer calls `get_latest` -/
  | getLatestOp
  deriving Repr, DecidableEq

/-- One event-loop step on a channel and its live timers. -/
def sysStep (sys : Sys) : Op → Except String Sys
  | Op.pushOp v =>
    match sys.chunker.push v with
    | Except.error e => Except.error e
    | Except.ok (c2, evs) => Except.ok ⟨c2, applyTimerEvents sys.live evs⟩
  | Op.timerFire =>
    let live1 := sys.live.erase sys.chunker.timeout
    let (c2, evs) := sys.chunker.timeout_elapsed
    Except.ok ⟨c2, applyTimerEvents live1 evs⟩
  | Op.getNewOp =>
    Except.ok ⟨(sys.chunker.get_new_register).1, sys.live⟩
  | Op.getLatestOp =>
    Except.ok ⟨(sys.chunker.get_latest).1, sys.live⟩

/-- The system state right after `SampleChunker.__init__`. -/
def sysInit (name : String) (target_bin_size : Int)
    (max_bin_duration_secs : Nat) : Sys :=
  let (c, evs) := SampleChunker.init name target_bin_size max_bin_duration_secs
  ⟨c, applyTimerEvents [] evs⟩

/-- Run a list of event-loop operations from a system state. -/
def sysRun (sys : Sys) : List Op → Except String Sys
  | [] => Except.ok sys
  | op :: ops =>
    match sysStep sys op with
    | Except.error e => Except.error e
    | Except.ok sys2 => sysRun sys2 ops

/-! ## Push-only runs and their flush output, for the conservation claim -/

/-- Push a list of values in order, accumulating all emitted events. -/
def pushRun (s : SampleChunker) : List ℚ →
    Except String (SampleChunker × List Event)
  | [] => Except.ok (s, [])
  | v :: vs =>
    match s.push v with
    | Except.error e => Except.error e
    | Except.ok (s2, evs) =>
      match pushRun s2 vs with
      | Except.error e => Except.error e
      | Except.ok (s3, evs2) => Except.ok (s3, evs ++ evs2)

/-- The bins handed to the `bin_finished` callback in an event list,
in callback order. -/
def binsOf (evs : List Event) : List (List ℚ) :=
  evs.filterMap fun
    | Event.binFinished samples => some samples
    | _ => none

/-- The waiter resolutions in an event list, as (future id, value) pairs in
resolution order. -/
def resolveOf : Event → Option (Nat × ℚ)
  | Event.resolve id v => some (id, v)
  | _ => none

/-- All waiter resolutions of an event list, in order. -/
def resolvesOf (evs : List Event) : List (Nat × ℚ) := evs.filterMap resolveOf

/-! ## Basic lemmas about a single `push` -/

theorem binsOf_append (evs evs2 : List Event) :
    binsOf (evs ++ evs2) = binsOf evs ++ binsOf evs2 :=
  List.filterMap_append ..

theorem resolvesOf_append (evs evs2 : List Event) :
    resolvesOf (evs ++ evs2) = resolvesOf evs ++ resolvesOf evs2 :=
  List.filterMap_append ..

theorem binsOf_resolves (waiters : List Nat) (v : ℚ) :
    binsOf (waiters.map fun id => Event.resolve id v) = [] := by
  induction waiters with
  | nil => rfl
  | cons w ws ih => simp [binsOf, List.filterMap_cons, ih]

theorem resolvesOf_resolves (waiters : List Nat) (v : ℚ) :
    resolvesOf (waiters.map fun id => Event.resolve id v) =
      waiters.map fun id => (id, v) := by
  induction waiters with
  | nil => rfl
  | cons w ws ih => simpa [resolvesOf, resolveOf, List.filterMap_cons] using ih

/-- Closed form of a `push` that reaches `target_bin_size` exactly: the bin
is flushed (cancel the timer, report the bin, schedule a fresh timer), then
all pending waiters are resolved. -/
theorem SampleChunker.push_eq_of_full (s : SampleChunker) (v : ℚ)
    (hfull : ((s.points ++ [v]).length : Int) = s.target_bin_size) :
    s.push v = Except.ok
      ({ s with
          points := [], last_point := some v, waiting_for_values := [],
          timeout := s.nextTimerId, nextTimerId := s.nextTimerId + 1 },
       [Event.cancelTimer s.timeout, Event.binFinished (s.points ++ [v]),
        Event.scheduleTimer s.nextTimerId s.max_bin_duration_secs]
         ++ s.waiting_for_values.map fun id => Event.resolve id v) := by
  have h1 : (s.points.length : Int) + 1 = s.target_bin_size := by
    simpa using hfull
  simp [SampleChunker.push, SampleChunker.finish_bin,
    SampleChunker.schedule_timeout, h1]

/-- Closed form of a `push` that does not reach `target_bin_size`: the value
is buffered and all pending waiters are resolved. -/
theorem SampleChunker.push_eq_of_not_full (s : SampleChunker) (v : ℚ)
    (hfull : ¬ ((s.points ++ [v]).length : Int) = s.target_bin_size) :
    s.push v = Except.ok
      ({ s with
          points := s.points ++ [v], last_point := some v,
          waiting_for_values := [] },
       s.waiting_for_values.map fun id => Event.resolve id v) := by
  have h1 : ¬ ((s.points.length : Int) + 1 = s.target_bin_size) := by
    simpa using hfull
  simp [SampleChunker.push, h1]

/-- Everything a single `push` guarantees regardless of whether it triggers a
count flush: it always succeeds, configuration and the waiter-id allocator
are untouched, the pushed value becomes the last point, the waiter list is
cleared, exactly the previously pending waiters are resolved with the pushed
value in registration order, and the samples flushed by the call plus the
remaining buffer are the old buffer plus the pushed value. -/
theorem SampleChunker.push_spec (s : SampleChunker) (v : ℚ) :
    ∃ s2 evs, s.push v = Except.ok (s2, evs)
      ∧ s2.name = s.name
      ∧ s2.target_bin_size = s.target_bin_size
      ∧ s2.max_bin_duration_secs = s.max_bin_duration_secs
      ∧ s2.last_point = some v
      ∧ s2.waiting_for_values = []
      ∧ s2.nextWaiterId = s.nextWaiterId
      ∧ resolvesOf evs = s.waiting_for_values.map (fun id => (id, v))
      ∧ (binsOf evs).flatten ++ s2.points = s.points ++ [v] := by
  by_cases hfull : ((s.points ++ [v]).length : Int) = s.target_bin_size
  · refine ⟨_, _, s.push_eq_of_full v hfull, rfl, rfl, rfl, rfl, rfl, rfl,
      ?_, ?_⟩
    · rw [resolvesOf_append, resolvesOf_resolves]
      exact List.nil_append _
    · rw [binsOf_append, binsOf_resolves]
      show ([s.points ++ [v]] ++ []).flatten ++ [] = s.points ++ [v]
      simp
  · refine ⟨_, _, s.push_eq_of_not_full v hfull, rfl, rfl, rfl, rfl, rfl, rfl,
      ?_, ?_⟩
    · exact resolvesOf_resolves _ _
    · rw [binsOf_resolves]
      simp

/-- Closed form of `_finish_bin` on a non-empty bin: cancel the timer,
report the full bin, clear the points and schedule a fresh timer; no other
field changes. -/
theorem SampleChunker.finish_bin_eq (s : SampleChunker) (hp : ¬ s.points = []) :
    s.finish_bin = Except.ok
      ({ s with
          points := [], timeout := s.nextTimerId,
          nextTimerId := s.nextTimerId + 1 },
       [Event.cancelTimer s.timeout, Event.binFinished s.points,
        Event.scheduleTimer s.nextTimerId s.max_bin_duration_secs]) := by
  simp [SampleChunker.finish_bin, SampleChunker.schedule_timeout, hp]

/-! ## Lemmas about live timers -/

theorem applyTimerEvents_append (live : List Nat) (evs evs2 : List Event) :
    applyTimerEvents live (evs ++ evs2) =
      applyTimerEvents (applyTimerEvents live evs) evs2 :=
  List.foldl_append ..

theorem applyTimerEvents_resolves (live : List Nat) (ws : List Nat) (v : ℚ) :
    List.foldl applyTimerEvent live (ws.map fun id => Event.resolve id v) =
      live := by
  induction ws generalizing live with
  | nil => rfl
  | cons w ws ih => simpa [applyTimerEvent] using ih live

/-- The per-channel timer invariant: the live timer handles of the loop are
exactly the one stored in `self._timeout`. -/
def timerInv (sys : Sys) : Prop := sys.live = [sys.chunker.timeout]

theorem sysStep_timerInv (sys : Sys) (op : Op) (h : timerInv sys) :
    ∃ sys2, sysStep sys op = Except.ok sys2 ∧ timerInv sys2 := by
  unfold timerInv at h
  cases op with
  | pushOp v =>
    by_cases hfull :
        ((sys.chunker.points ++ [v]).length : Int) = sys.chunker.target_bin_size
    · simp only [sysStep, sys.chunker.push_eq_of_full v hfull]
      exact ⟨_, rfl, by
        simp [timerInv, h, applyTimerEvents_append, applyTimerEvents,
          applyTimerEvent, applyTimerEvents_resolves]⟩
    · simp only [sysStep, sys.chunker.push_eq_of_not_full v hfull]
      exact ⟨_, rfl, by
        simp [timerInv, h, applyTimerEvents, applyTimerEvents_resolves]⟩
  | timerFire =>
    refine ⟨_, rfl, ?_⟩
    by_cases hp : sys.chunker.points = [] <;>
      simp [timerInv, sysStep, SampleChunker.timeout_elapsed,
        SampleChunker.schedule_timeout, h, hp, applyTimerEvents,
        applyTimerEvent]
  | getNewOp =>
    exact ⟨_, rfl, by simp [timerInv, sysStep, SampleChunker.get_new_register, h]⟩
  | getLatestOp =>
    refine ⟨_, rfl, ?_⟩
    by_cases hf : pyFalsy sys.chunker.last_point <;>
      simp [timerInv, sysStep, SampleChunker.get_latest,
        SampleChunker.get_new_register, h, hf]

theorem sysRun_timerInv (ops : List Op) (sys : Sys) (h : timerInv sys) :
    ∃ sys2, sysRun sys ops = Except.ok sys2 ∧ timerInv sys2 := by
  induction ops generalizing sys with
  | nil => exact ⟨sys, rfl, h⟩
  | cons op ops ih =>
    obtain ⟨sys1, hstep, hinv1⟩ := sysStep_timerInv sys op h
    obtain ⟨sys2, hrun, hinv2⟩ := ih sys1 hinv1
    exact ⟨sys2, by simp [sysRun, hstep, hrun], hinv2⟩

/-- A sample channel state used to instantiate theorems with hypotheses:
target bin size 3, two points already buffered, one pending waiter. -/
def witnessState : SampleChunker :=
  { name := "wavelength_vac_nm"
    target_bin_size := 3
    max_bin_duration_secs := 30
    points := [1, 2]
    last_point := some 2
    waiting_for_values := [5]
    timeout := 7
    nextTimerId := 8
    nextWaiterId := 6 }

/-! ## The claims -/

/-- Claim C1: the spec says that a timer expiry with a non-empty points
buffer performs a flush (bin-finished callback invoked with the accumulated
samples in arrival order, points cleared).  The code violates this: the
non-empty branch of `_timeout_elapsed` is literally `pass`, so an expiry
never invokes the bin-finished callback and never clears the buffer; shown
here for every state, and on the concrete run that pushes one value into a
fresh channel with target size 256 and then lets the timer expire. -/
theorem timeout_nonempty_never_flushes :
    (∀ s : SampleChunker,
      binsOf (s.timeout_elapsed).2 = []
        ∧ (s.timeout_elapsed).1.points = s.points)
    ∧ (∃ s2 evs,
        pushRun (SampleChunker.init "wavelength_vac_nm" 256 30).1 [1]
          = Except.ok (s2, evs)
        ∧ s2.points = [1]
        ∧ binsOf (s2.timeout_elapsed).2 = []
        ∧ (s2.timeout_elapsed).1.points = [1]) := by
  constructor
  · intro s
    by_cases hp : s.points = [] <;>
      simp [SampleChunker.timeout_elapsed, SampleChunker.schedule_timeout,
        binsOf, hp]
  · exact ⟨_, _, rfl, rfl, rfl, rfl⟩

/-- Claim C2: the spec says `get_latest` called after at least one push
returns immediately with the most recently pushed value.  The code violates
this for the value 0: `not self._last_point` is also true when the stored
last point is 0.0, so after `push(0.0)` the call suspends on a freshly
registered waiter instead of returning the value. -/
theorem get_latest_after_zero_push_suspends :
    ∃ s2, (SampleChunker.init "temperature_celsius" 256 30).1.push 0
        = Except.ok (s2, [])
      ∧ s2.last_point = some 0
      ∧ (s2.get_latest).2 = ReadResult.suspended 0
      ∧ (s2.get_latest).1.waiting_for_values = [0] :=
  ⟨_, rfl, rfl, rfl, rfl⟩

/-- Claim C3: a push that makes the accumulated count reach
`target_bin_size` flushes during that push call: the bin-finished callback
receives exactly the `target_bin_size` samples accumulated since the last
flush followed by the value just pushed, in push order, before the waiter
resolutions and before the push returns. -/
theorem count_flush_carries_full_bin (s : SampleChunker) (v : ℚ)
    (_htar : 0 < s.target_bin_size)
    (hfull : ((s.points ++ [v]).length : Int) = s.target_bin_size) :
    ∃ s2, s.push v = Except.ok (s2,
        [Event.cancelTimer s.timeout, Event.binFinished (s.points ++ [v]),
         Event.scheduleTimer s.nextTimerId s.max_bin_duration_secs]
          ++ s.waiting_for_values.map fun id => Event.resolve id v)
      ∧ ((s.points ++ [v]).length : Int) = s.target_bin_size
      ∧ s2.points = [] :=
  ⟨_, s.push_eq_of_full v hfull, hfull, rfl⟩

/-- Witness for claim C3: the state with points `[1, 2]` and target 3,
pushed with the value 3. -/
theorem count_flush_carries_full_bin_witness :
    0 < witnessState.target_bin_size
    ∧ (((witnessState.points ++ [3]).length : Int)
        = witnessState.target_bin_size)
    ∧ ∃ s2, witnessState.push 3 = Except.ok (s2,
        [Event.cancelTimer witnessState.timeout,
         Event.binFinished (witnessState.points ++ [3]),
         Event.scheduleTimer witnessState.nextTimerId
           witnessState.max_bin_duration_secs]
          ++ witnessState.waiting_for_values.map fun id => Event.resolve id 3)
      ∧ ((witnessState.points ++ [3]).length : Int)
          = witnessState.target_bin_size
      ∧ s2.points = [] :=
  ⟨by decide, by decide,
   count_flush_carries_full_bin witnessState 3 (by decide) (by decide)⟩

/-- Claim C4: a push resolves exactly the waiters pending when it runs, each
exactly once, with the pushed value, in registration order, and afterwards
no waiter is pending; a waiter registered directly after the push is not
among the ones it resolved and is pending for a subsequent push. -/
theorem push_resolves_pending_waiters (s : SampleChunker) (v : ℚ)
    (hfresh : ∀ id ∈ s.waiting_for_values, id < s.nextWaiterId) :
    ∃ s2 evs, s.push v = Except.ok (s2, evs)
      ∧ resolvesOf evs = s.waiting_for_values.map (fun id => (id, v))
      ∧ s2.waiting_for_values = []
      ∧ (s2.get_new_register).2 ∉ (resolvesOf evs).map Prod.fst
      ∧ (s2.get_new_register).1.waiting_for_values
          = [(s2.get_new_register).2] := by
  obtain ⟨s2, evs, hpush, _, _, _, _, hclear, hnw, hres, _⟩ := s.push_spec v
  refine ⟨s2, evs, hpush, hres, hclear, ?_, ?_⟩
  · have h2 : (s2.get_new_register).2 = s.nextWaiterId := by
      simp [SampleChunker.get_new_register, hnw]
    rw [hres, h2]
    intro hmem
    have hm : s.nextWaiterId ∈ s.waiting_for_values := by
      simpa [List.map_map, Function.comp] using hmem
    exact lt_irrefl _ (hfresh _ hm)
  · simp [SampleChunker.get_new_register, hclear]

/-- Witness for claim C4: the state with one pending waiter (id 5), pushed
with the value 4. -/
theorem push_resolves_pending_waiters_witness :
    (∀ id ∈ witnessState.waiting_for_values, id < witnessState.nextWaiterId)
    ∧ ∃ s2 evs, witnessState.push 4 = Except.ok (s2, evs)
      ∧ resolvesOf evs
          = witnessState.waiting_for_values.map (fun id => (id, 4))
      ∧ s2.waiting_for_values = []
      ∧ (s2.get_new_register).2 ∉ (resolvesOf evs).map Prod.fst
      ∧ (s2.get_new_register).1.waiting_for_values
          = [(s2.get_new_register).2] :=
  ⟨by decide, push_resolves_pending_waiters witnessState 4 (by decide)⟩

/-- Claim C5: from construction onward, after every sequence of event-loop
operations (pushes, timer expiries, reads) exactly one timer is live, namely
the one stored in the channel state: every flush cancels the old timer and
schedules exactly one replacement, and an expiry consumes the fired timer
and schedules exactly one fresh one. -/
theorem exactly_one_live_timer (name : String) (tbs : Int) (mbd : Nat)
    (ops : List Op) :
    ∃ sys, sysRun (sysInit name tbs mbd) ops = Except.ok sys
      ∧ sys.live = [sys.chunker.timeout] :=
  sysRun_timerInv ops (sysInit name tbs mbd) rfl

/-- Claim C6: a timer expiry with an empty points buffer invokes no
bin-finished callback, emits exactly the low-traffic log notice naming the
channel and the elapsed interval, schedules one fresh timer for the maximum
bin duration, and leaves points, last point and pending waiters unchanged. -/
theorem timeout_empty_logs_and_reschedules (s : SampleChunker)
    (hp : s.points = []) :
    s.timeout_elapsed =
      ({ s with timeout := s.nextTimerId, nextTimerId := s.nextTimerId + 1 },
       [Event.logNoData s.name s.max_bin_duration_secs,
        Event.scheduleTimer s.nextTimerId s.max_bin_duration_secs])
      ∧ binsOf (s.timeout_elapsed).2 = []
      ∧ (s.timeout_elapsed).1.points = s.points
      ∧ (s.timeout_elapsed).1.last_point = s.last_point
      ∧ (s.timeout_elapsed).1.waiting_for_values = s.waiting_for_values := by
  refine ⟨?_, ?_, ?_, ?_, ?_⟩ <;>
    simp [SampleChunker.timeout_elapsed, SampleChunker.schedule_timeout,
      binsOf, hp]

/-- Witness for claim C6: a freshly constructed channel, whose buffer is
empty. -/
theorem timeout_empty_logs_and_reschedules_witness :
    (SampleChunker.init "linewidth_vac_nm" 256 30).1.points = []
    ∧ ((SampleChunker.init "linewidth_vac_nm" 256 30).1.timeout_elapsed =
        ({ (SampleChunker.init "linewidth_vac_nm" 256 30).1 with
            timeout := (SampleChunker.init "linewidth_vac_nm" 256 30).1.nextTimerId,
            nextTimerId :=
              (SampleChunker.init "linewidth_vac_nm" 256 30).1.nextTimerId + 1 },
         [Event.logNoData
            (SampleChunker.init "linewidth_vac_nm" 256 30).1.name
            (SampleChunker.init "linewidth_vac_nm" 256 30).1.max_bin_duration_secs,
          Event.scheduleTimer
            (SampleChunker.init "linewidth_vac_nm" 256 30).1.nextTimerId
            (SampleChunker.init "linewidth_vac_nm" 256 30).1.max_bin_duration_secs])
      ∧ binsOf ((SampleChunker.init "linewidth_vac_nm" 256 30).1.timeout_elapsed).2 = []
      ∧ ((SampleChunker.init "linewidth_vac_nm" 256 30).1.timeout_elapsed).1.points
          = (SampleChunker.init "linewidth_vac_nm" 256 30).1.points
      ∧ ((SampleChunker.init "linewidth_vac_nm" 256 30).1.timeout_elapsed).1.last_point
          = (SampleChunker.init "linewidth_vac_nm" 256 30).1.last_point
      ∧ ((SampleChunker.init "linewidth_vac_nm" 256 30).1.timeout_elapsed).1.waiting_for_values
          = (SampleChunker.init "linewidth_vac_nm" 256 30).1.waiting_for_values) :=
  ⟨rfl, timeout_empty_logs_and_reschedules
    (SampleChunker.init "linewidth_vac_nm" 256 30).1 rfl⟩

/-- Claim C7: attempting to flush an empty bin signals the internal
assertion error, and the count-triggered flush path never reaches it: a push
with a positive target bin size always succeeds. -/
theorem empty_flush_asserts_and_count_flush_safe :
    (∀ s : SampleChunker, s.points = [] →
      s.finish_bin = Except.error "Cannot finish empty bin")
    ∧ (∀ (s : SampleChunker) (v : ℚ), 0 < s.target_bin_size →
      ∃ p, s.push v = Except.ok p) := by
  constructor
  · intro s hp
    simp [SampleChunker.finish_bin, hp]
  · intro s v _
    obtain ⟨s2, evs, hpush, _⟩ := s.push_spec v
    exact ⟨(s2, evs), hpush⟩

/-- Witness for claim C7: the assertion fires on a freshly constructed
channel, and a push into `witnessState` (target size 3) succeeds. -/
theorem empty_flush_asserts_and_count_flush_safe_witness :
    ((SampleChunker.init "exposure_1_ms" 256 30).1.points = []
      ∧ (SampleChunker.init "exposure_1_ms" 256 30).1.finish_bin
          = Except.error "Cannot finish empty bin")
    ∧ (0 < witnessState.target_bin_size
      ∧ ∃ p, witnessState.push 3 = Except.ok p) :=
  ⟨⟨rfl, empty_flush_asserts_and_count_flush_safe.1 _ rfl⟩,
   ⟨by decide,
    empty_flush_asserts_and_count_flush_safe.2 witnessState 3 (by decide)⟩⟩

/-- Claim C8: an event whose measurement kind has no registered channel is
dropped silently by `meas_cb` (no state change, no event, no error); an
event whose kind is registered is pushed into that channel. -/
theorem meas_cb_routes_or_drops (channels : Channels) (t : MeasurementType)
    (v : ℚ) :
    (channels.lookup t = none →
      meas_cb channels t v = Except.ok (channels, []))
    ∧ ∀ c, channels.lookup t = some c →
      ∃ c2 evs, c.push v = Except.ok (c2, evs)
        ∧ meas_cb channels t v = Except.ok
            (channels.map fun p => if p.1 = t then (p.1, c2) else p, evs) := by
  constructor
  · intro h
    simp [meas_cb, h]
  · intro c h
    obtain ⟨c2, evs, hpush, _⟩ := c.push_spec v
    exact ⟨c2, evs, hpush, by simp [meas_cb, h, hpush]⟩

/-- Witness for claim C8: an empty registry drops a temperature event; a
registry holding one wavelength channel routes a wavelength event to it. -/
theorem meas_cb_routes_or_drops_witness :
    (([] : Channels).lookup MeasurementType.temperature = none
      ∧ meas_cb [] MeasurementType.temperature 5 = Except.ok ([], []))
    ∧ (([(MeasurementType.wavelength, witnessState)] : Channels).lookup
          MeasurementType.wavelength = some witnessState
      ∧ ∃ c2 evs, witnessState.push 5 = Except.ok (c2, evs)
        ∧ meas_cb [(MeasurementType.wavelength, witnessState)]
              MeasurementType.wavelength 5
            = Except.ok
              (([(MeasurementType.wavelength, witnessState)] : Channels).map
                fun p =>
                  if p.1 = MeasurementType.wavelength then (p.1, c2) else p,
               evs)) :=
  ⟨⟨rfl, (meas_cb_routes_or_drops [] MeasurementType.temperature 5).1 rfl⟩,
   ⟨rfl, (meas_cb_routes_or_drops [(MeasurementType.wavelength, witnessState)]
      MeasurementType.wavelength 5).2 witnessState rfl⟩⟩

/-- A run of pushes conserves samples relative to any start state: the
concatenation of all flushed bins followed by the final buffer equals the
start buffer followed by the pushed values. -/
theorem pushRun_spec (vs : List ℚ) (s : SampleChunker) :
    ∃ s2 evs, pushRun s vs = Except.ok (s2, evs)
      ∧ (binsOf evs).flatten ++ s2.points = s.points ++ vs := by
  induction vs generalizing s with
  | nil => exact ⟨s, [], rfl, by simp [binsOf]⟩
  | cons v vs ih =>
    obtain ⟨s1, evs1, hpush, _, _, _, _, _, _, _, hcons⟩ := s.push_spec v
    obtain ⟨s2, evs2, hrun, hcons2⟩ := ih s1
    refine ⟨s2, evs1 ++ evs2, ?_, ?_⟩
    · simp [pushRun, hpush, hrun]
    · rw [binsOf_append, List.flatten_append, List.append_assoc, hcons2,
        ← List.append_assoc, hcons, List.append_assoc]
      simp

/-- Claim C9: in a run where every flush is count-triggered (a pure sequence
of pushes from construction), no sample is lost or duplicated: the
concatenation of all bins handed to the bin-finished callback, followed by
the current buffer, equals the pushed values in push order. -/
theorem count_flush_runs_conserve_samples (name : String) (tbs : Int)
    (mbd : Nat) (vs : List ℚ) :
    ∃ s evs,
      pushRun (SampleChunker.init name tbs mbd).1 vs = Except.ok (s, evs)
      ∧ (binsOf evs).flatten ++ s.points = vs := by
  obtain ⟨s, evs, hrun, hcons⟩ :=
    pushRun_spec vs (SampleChunker.init name tbs mbd).1
  have hpts : (SampleChunker.init name tbs mbd).1.points = [] := rfl
  rw [hpts] at hcons
  exact ⟨s, evs, hrun, by simpa using hcons⟩

/-- Claim C10: a flush modifies only the points buffer and the timer fields
(the closed form of `_finish_bin` leaves last point and pending waiters
untouched); consequently a push that triggers a count flush still resolves
every pending waiter with the pushed value, and the value stays observable
as the latest one. -/
theorem flush_frame_only_points_and_timer (s : SampleChunker) (v : ℚ)
    (hp : ¬ s.points = []) :
    s.finish_bin = Except.ok
      ({ s with
          points := [], timeout := s.nextTimerId,
          nextTimerId := s.nextTimerId + 1 },
       [Event.cancelTimer s.timeout, Event.binFinished s.points,
        Event.scheduleTimer s.nextTimerId s.max_bin_duration_secs])
    ∧ (∃ s2 evs, s.push v = Except.ok (s2, evs)
        ∧ s2.last_point = some v
        ∧ resolvesOf evs = s.waiting_for_values.map fun id => (id, v)) := by
  refine ⟨s.finish_bin_eq hp, ?_⟩
  obtain ⟨s2, evs, hpush, _, _, _, hlast, _, _, hres, _⟩ := s.push_spec v
  exact ⟨s2, evs, hpush, hlast, hres⟩

/-- Witness for claim C10: `witnessState` holds the non-empty buffer
`[1, 2]`; the push uses the value 9. -/
theorem flush_frame_only_points_and_timer_witness :
    (¬ witnessState.points = [])
    ∧ (witnessState.finish_bin = Except.ok
        ({ witnessState with
            points := [], timeout := witnessState.nextTimerId,
            nextTimerId := witnessState.nextTimerId + 1 },
         [Event.cancelTimer witnessState.timeout,
          Event.binFinished witnessState.points,
          Event.scheduleTimer witnessState.nextTimerId
            witnessState.max_bin_duration_secs])
      ∧ (∃ s2 evs, witnessState.push 9 = Except.ok (s2, evs)
          ∧ s2.last_point = some 9
          ∧ resolvesOf evs
              = witnessState.waiting_for_values.map fun id => (id, 9))) :=
  ⟨by decide, flush_frame_only_points_and_timer witnessState 9 (by decide)⟩

end LsaChunker
